import Mathlib

/-!
Verification of the Furry-GIF catalog core (tag resolution, boolean tag
search, set reconciliation, item lifecycle) against its specification.

The JavaScript data-access layer is shallowly embedded here:

* Database tables (`Gif`, `Tag`, `GifTag`, `TagAlias`, `Source`) become lists
  of records inside a `DB` structure; primary-key uniqueness is carried as an
  explicit `Nodup` hypothesis where a proof needs it.
* The SQL query issued by `Gif.search` is embedded twice: once as the literal
  string the code builds (`Gif.buildSearchSql`, used to analyse its syntactic
  well-formedness) and once as a relational evaluator (`Gif.searchAllInc`,
  `Gif.searchAllNoTags`) giving the MySQL semantics of the generated query
  when it parses: inner joins Gif–GifTag–Tag, a left join to TagAlias (one
  row per alias, a single row with no alias when the tag has none), the
  rating visibility gate, `GROUP BY fileUniqueId HAVING COUNT(...) = n`, and
  `LIMIT ? OFFSET ?`.
* JavaScript truthiness (`if (rating)`, `properties.fileName || null`) is
  modelled by `jsTruthyStr`, `jsOrNullStr`, `jsOrNullNat`.
* The `tags`/`sources` property setters run their database work inside an
  async IIFE whose promise is discarded; the embedding therefore separates
  the inner computation (`Gif.setTagsRun`, which can fail) from what the
  assigning caller observes (`GifController.updateWithTags`).
-/

/-- JavaScript truthiness of a nullable string: `null` and `""` are falsy. -/
def jsTruthyStr : Option String → Bool
  | none => false
  | some s => !s.isEmpty

/-- JavaScript `x || null` for a nullable string: `""` collapses to `null`. -/
def jsOrNullStr : Option String → Option String
  | none => none
  | some s => if s.isEmpty then none else some s

/-- JavaScript `x || null` for a nullable number: `0` collapses to `null`. -/
def jsOrNullNat : Option Nat → Option Nat
  | none => none
  | some n => if n = 0 then none else some n

/-- JavaScript `token.startsWith("-")`. (Defined on the character list so the
kernel can evaluate it on literals.) -/
def startsWithDash (s : String) : Bool :=
  match s.data with
  | [] => false
  | c :: _ => c = '-'

/-- A row of the `Gif` table (`src/unnamed/part_003`, class fields and
schema `CREATE TABLE Gif`). `rating` is `NULL | 'safe' | 'explicit'`. -/
structure GifRow where
  fileId : String
  fileUniqueId : String
  width : Nat
  height : Nat
  duration : Nat
  fileName : Option String
  mimeType : Option String
  fileSize : Option Nat
  thumbFileId : String
  thumbFileUniqueId : String
  thumbWidth : Nat
  thumbHeight : Nat
  thumbFileSize : Option Nat
  rating : Option String
  uploadedById : Option Nat
  approvedById : Option Nat
deriving DecidableEq, Repr

/-- A row of the `Tag` table: name (primary key) and category. -/
structure TagRow where
  tag : String
  category : String
deriving DecidableEq, Repr

/-- A row of the `GifTag` association table. -/
structure GifTagRow where
  fileUniqueId : String
  tag : String
deriving DecidableEq, Repr

/-- A row of the `TagAlias` table. The `alias` column (primary key) is named
`aliasName` here because `alias` is a reserved word in the proof assistant. -/
structure TagAliasRow where
  tag : String
  aliasName : String
deriving DecidableEq, Repr

/-- A row of the `Source` table. -/
structure SourceRow where
  source : String
  fileUniqueId : String
deriving DecidableEq, Repr

/-- The database state: one list of rows per table. -/
structure DB where
  gifs : List GifRow
  tags : List TagRow
  gifTags : List GifTagRow
  tagAliases : List TagAliasRow
  sources : List SourceRow
deriving DecidableEq, Repr

/-- A user record (`src/unnamed/part_002`): only the fields the claims
touch. `role` is the string enum `user | moderator | administrator`. -/
structure User where
  id : Nat
  role : String
  sfwMode : Bool
deriving DecidableEq, Repr

/-- A JavaScript `Error` with a `name`, `message` and preserved `cause`,
as produced by the data-access layer's catch blocks. -/
structure JsError where
  name : String
  message : String
  cause : Option String
deriving DecidableEq, Repr

namespace Tag

/-- Rows of the query
`SELECT Tag.tag, category FROM TagAlias JOIN Tag ON TagAlias.tag = Tag.tag
WHERE alias = ?` (first query of `Tag.readByTagName`). -/
def aliasJoin (aliases : List TagAliasRow) (tags : List TagRow) (n : String) :
    List TagRow :=
  aliases.flatMap fun a =>
    if a.aliasName = n then tags.filter (fun t => decide (t.tag = a.tag)) else []

/-- `Tag.readByTagName` (Tag model): look the token up as an alias first and
return the tag the alias points to; otherwise look it up as a canonical tag
name; return `null` when neither matches. -/
def readByTagName (db : DB) (tagName : String) : Option TagRow :=
  match (aliasJoin db.tagAliases db.tags tagName).head? with
  | some t => some t
  | none => (db.tags.filter (fun t => decide (t.tag = tagName))).head?

end Tag

namespace Gif

/-- `Gif.readById`: `SELECT * FROM Gif WHERE fileUniqueId = ?`, `null` when
no row matches. -/
def readById (db : DB) (fileUniqueId : String) : Option GifRow :=
  (db.gifs.filter (fun g => decide (g.fileUniqueId = fileUniqueId))).head?

/-- The placeholder list the search builder produces: `n` copies of `"?, "`
concatenated, then the last two characters sliced off. -/
def includePlaceholders (n : Nat) : String :=
  (String.join (List.replicate n "?, ")).dropRight 2

/-- The SQL text `Gif.search` builds (whitespace normalised; the branch
structure and every token follow the source). Negative tokens keep their
leading `-` in both the text's placeholders and the value list. -/
def buildSearchSql (tags : List String) (rating : Option String) : String :=
  let includeTags := tags.filter (fun t => !startsWithDash t)
  let negateTags := tags.filter (fun t => startsWithDash t)
  let sql := "SELECT DISTINCT Gif.* FROM Gif JOIN GifTag ON Gif.fileUniqueId = GifTag.fileUniqueId JOIN Tag ON GifTag.tag = Tag.tag LEFT JOIN TagAlias ON Tag.tag = TagAlias.tag WHERE Gif.rating IS NOT NULL "
  let sql := if jsTruthyStr rating then sql ++ "AND Gif.rating = ?" else sql
  let sql := if tags.length ≠ 0 then sql ++ " AND " else sql
  let sql :=
    if includeTags.length ≠ 0 then
      let p := includePlaceholders includeTags.length
      sql ++ "(Tag.tag IN (" ++ p ++ ") OR TagAlias.alias IN (" ++ p ++ "))"
    else sql
  let sql :=
    if includeTags.length ≠ 0 ∧ negateTags.length ≠ 0 then sql ++ " AND " else sql
  let sql :=
    if negateTags.length ≠ 0 then
      let p := includePlaceholders negateTags.length
      sql ++ "Gif.fileUniqueId NOT IN ( SELECT Gif.fileUniqueId FROM Gif JOIN GifTag ON Gif.fileUniqueId = GifTag.fileUniqueId JOIN Tag ON GifTag.tag = Tag.tag LEFT JOIN TagAlias ON Tag.tag = TagAlias.tag WHERE ( Tag.tag IN (" ++ p ++ ") OR TagAlias.alias IN (" ++ p ++ ") )"
    else sql
  let sql :=
    if includeTags.length ≠ 0 then
      sql ++ " GROUP BY Gif.fileUniqueId HAVING COUNT(Gif.fileUniqueId)=" ++
        toString includeTags.length
    else sql
  sql ++ " LIMIT ? OFFSET ?"

/-- The value list bound to the placeholders of `buildSearchSql` (numbers
rendered as strings): optional rating, the include tokens twice, the negate
tokens twice (hyphen retained), then limit and offset. -/
def buildSearchValues (tags : List String) (rating : Option String)
    (page limit : Nat) : List String :=
  let includeTags := tags.filter (fun t => !startsWithDash t)
  let negateTags := tags.filter (fun t => startsWithDash t)
  (if jsTruthyStr rating then [rating.getD ""] else []) ++
    includeTags ++ includeTags ++ negateTags ++ negateTags ++
    [toString limit, toString (limit * page)]

/-- Net count of opening minus closing parentheses of a string. A query whose
balance is nonzero is rejected by the SQL parser. -/
def sqlParenBalance (s : String) : Int :=
  s.data.foldl (fun b c => if c = '(' then b + 1 else if c = ')' then b - 1 else b) 0

/-- A row of the joined relation
`Gif JOIN GifTag JOIN Tag LEFT JOIN TagAlias` the search query ranges over. -/
structure JoinRow where
  gif : GifRow
  gt : GifTagRow
  t : TagRow
  al : Option TagAliasRow
deriving DecidableEq, Repr

/-- The `LEFT JOIN TagAlias ON Tag.tag = TagAlias.tag` contribution for one
tag: one row per alias, or a single aliasless row when the tag has none. -/
def aliasRowsFor (db : DB) (t : TagRow) : List (Option TagAliasRow) :=
  let as := db.tagAliases.filter (fun a => decide (a.tag = t.tag))
  if as.isEmpty then [none] else as.map some

/-- All rows of the joined relation of the search query. -/
def joinRows (db : DB) : List JoinRow :=
  db.gifs.flatMap fun g =>
    (db.gifTags.filter (fun gt => decide (gt.fileUniqueId = g.fileUniqueId))).flatMap fun gt =>
      (db.tags.filter (fun t => decide (t.tag = gt.tag))).flatMap fun t =>
        (aliasRowsFor db t).map fun al => ⟨g, gt, t, al⟩

/-- The visibility gate of the search query's WHERE clause:
`Gif.rating IS NOT NULL` and, when a rating argument is (truthily) supplied,
`Gif.rating = ?`. -/
def ratingOk (rating : Option String) (r : JoinRow) : Bool :=
  r.gif.rating.isSome && (!jsTruthyStr rating || decide (r.gif.rating = rating))

/-- Join rows surviving the visibility gate. -/
def visibleRows (db : DB) (rating : Option String) : List JoinRow :=
  (joinRows db).filter (ratingOk rating)

/-- The positive-tag disjunct of the WHERE clause:
`Tag.tag IN (...) OR TagAlias.alias IN (...)` (a NULL alias matches
nothing). -/
def rowMatchesInclude (inc : List String) (r : JoinRow) : Bool :=
  inc.contains r.t.tag ||
    match r.al with
    | some a => inc.contains a.aliasName
    | none => false

/-- First occurrence of each `fileUniqueId` among the rows, in row order:
the keys of `GROUP BY Gif.fileUniqueId`. -/
def groupKeys (seen : List String) : List JoinRow → List String
  | [] => []
  | r :: rs =>
    if r.gif.fileUniqueId ∈ seen then groupKeys seen rs
    else r.gif.fileUniqueId :: groupKeys (r.gif.fileUniqueId :: seen) rs

/-- `SELECT DISTINCT Gif.*` without grouping: the distinct gif rows among the
join rows, in first-occurrence order. -/
def distinctGifs (seen : List GifRow) : List JoinRow → List GifRow
  | [] => []
  | r :: rs =>
    if r.gif ∈ seen then distinctGifs seen rs
    else r.gif :: distinctGifs (r.gif :: seen) rs

/-- The gate-passing join rows matched by the positive-tag disjunct: the
rows the generated query groups when `includeTags` is nonempty. -/
def incRows (db : DB) (inc : List String) (rating : Option String) :
    List JoinRow :=
  (visibleRows db rating).filter (rowMatchesInclude inc)

/-- Result of the generated query when `includeTags` is nonempty (and no
negative token is present): group the gate-passing, include-matching join
rows by `fileUniqueId` and keep the groups whose row count equals the number
of include tokens (`HAVING COUNT(Gif.fileUniqueId) = n`). The count is over
join rows, so a tag contributes once per alias. -/
def searchAllInc (db : DB) (inc : List String) (rating : Option String) :
    List GifRow :=
  (groupKeys [] (incRows db inc rating)).filterMap fun k =>
    if ((incRows db inc rating).filter
        (fun r => decide (r.gif.fileUniqueId = k))).length = inc.length then
      ((incRows db inc rating).filter
        (fun r => decide (r.gif.fileUniqueId = k))).head?.map (·.gif)
    else none

/-- Result of the generated query when no tag token is supplied: every
distinct gif row passing the visibility gate (still joined through `GifTag`
and `Tag`, so an untagged gif contributes no row). -/
def searchAllNoTags (db : DB) (rating : Option String) : List GifRow :=
  distinctGifs [] (visibleRows db rating)

/-- Number of gate-passing, include-matching join rows carrying a given
gif's `fileUniqueId`: the quantity the generated query's HAVING clause
compares against the number of include tokens. -/
def matchRowCount (db : DB) (inc : List String) (rating : Option String)
    (g : GifRow) : Nat :=
  ((incRows db inc rating).filter
    (fun r => decide (r.gif.fileUniqueId = g.fileUniqueId))).length

/-- `Gif.search`: split the tokens into include tokens and `-`-prefixed
negate tokens and run the generated query with `LIMIT limit OFFSET
limit * page`. When any negate token is present the generated SQL's
`NOT IN (` parenthesis is never closed (theorem on `buildSearchSql` below),
the store rejects the statement and the method throws `GifReadError`. -/
def search (db : DB) (tags : List String) (rating : Option String)
    (page limit : Nat) : Except JsError (List GifRow) :=
  let includeTags := tags.filter (fun t => !startsWithDash t)
  let negateTags := tags.filter (fun t => startsWithDash t)
  if negateTags.isEmpty then
    let all :=
      if includeTags.isEmpty then searchAllNoTags db rating
      else searchAllInc db includeTags rating
    Except.ok ((all.drop (limit * page)).take limit)
  else
    Except.error ⟨"GifReadError", "Error reading Gifs from database.", some "SQL syntax error"⟩

/-- The add list of the `tags` setter: every new tag whose name is not found
among the current tags (`(await this.tags).find(...) === undefined`). -/
def tagsToAdd (current newTags : List String) : List String :=
  newTags.filter fun n => (current.find? (fun e => decide (n = e))).isNone

/-- The remove list of the `tags` setter, computed after the adds have been
applied: every stored tag whose name is not found in the new list. -/
def tagsToRemove (current2 newTags : List String) : List String :=
  current2.filter fun e => (newTags.find? (fun n => decide (e = n))).isNone

/-- Outcome of one run of the `tags` setter body. -/
structure TagReconcile where
  finalTags : List String
  inserted : List String
  deleted : List String
deriving DecidableEq, Repr

/-- The `tags` property setter body with all storage writes succeeding:
phase one inserts every new tag absent from the current set, phase two
re-reads the (now extended) set and deletes every member absent from the
new list. -/
def setTags (current newTags : List String) : TagReconcile :=
  let adds := tagsToAdd current newTags
  let afterAdd := current ++ adds
  let dels := tagsToRemove afterAdd newTags
  { finalTags := afterAdd.filter (fun t => !dels.contains t)
    inserted := adds
    deleted := dels }

/-- The `tags` setter body with fallible storage writes. `insertFail t`
(resp. `deleteFail t`) is the storage error raised by the insert (delete) of
tag `t`, if any. A failed `Promise.all` of the insert phase is re-labeled
`GifTagAddError`, of the delete phase `GifTagDeleteError`, each preserving
the first underlying cause. -/
def setTagsRun (current newTags : List String)
    (insertFail deleteFail : String → Option String) :
    Except JsError (List String) :=
  let adds := tagsToAdd current newTags
  match adds.findSome? insertFail with
  | some cause =>
      Except.error ⟨"GifTagAddError", "Error adding Tags to Gif in database", some cause⟩
  | none =>
      let afterAdd := current ++ adds
      let dels := tagsToRemove afterAdd newTags
      match dels.findSome? deleteFail with
      | some cause =>
          Except.error ⟨"GifTagDeleteError", "Error deleting Tags for Gif from database", some cause⟩
      | none => Except.ok (afterAdd.filter (fun t => !dels.contains t))

end Gif

/-- The raw properties handed to the `Gif` constructor. -/
structure GifProps where
  fileId : String
  fileUniqueId : String
  width : Nat
  height : Nat
  duration : Nat
  fileName : Option String
  mimeType : Option String
  fileSize : Option Nat
  thumbFileId : String
  thumbFileUniqueId : String
  thumbWidth : Nat
  thumbHeight : Nat
  thumbFileSize : Option Nat
  rating : Option String
  uploadedById : Option Nat
  approvedById : Option Nat
deriving DecidableEq, Repr

/-- The `Gif` constructor: copies the properties, collapsing the optional
fields through `x || null`. -/
def Gif.ofProps (p : GifProps) : GifRow :=
  { fileId := p.fileId
    fileUniqueId := p.fileUniqueId
    width := p.width
    height := p.height
    duration := p.duration
    fileName := jsOrNullStr p.fileName
    mimeType := jsOrNullStr p.mimeType
    fileSize := jsOrNullNat p.fileSize
    thumbFileId := p.thumbFileId
    thumbFileUniqueId := p.thumbFileUniqueId
    thumbWidth := p.thumbWidth
    thumbHeight := p.thumbHeight
    thumbFileSize := jsOrNullNat p.thumbFileSize
    rating := jsOrNullStr p.rating
    uploadedById := p.uploadedById
    approvedById := jsOrNullNat p.approvedById }

namespace GifController

/-- `GifController.create`: read the gif by its unique key; if it exists,
return it untouched; otherwise record the requester as uploader, construct
the gif and insert it. -/
def create (db : DB) (requester : User) (p : GifProps) : DB × GifRow :=
  match Gif.readById db p.fileUniqueId with
  | some gif => (db, gif)
  | none =>
      let gif := Gif.ofProps { p with uploadedById := some requester.id }
      ({ db with gifs := db.gifs ++ [gif] }, gif)

/-- The authorization test of `GifController.delete`:
`requester.id === gif.uploadedById || ["moderator", "administrator"].includes(requester.role)`.
No field of the gif other than `uploadedById` is consulted. -/
def deleteAllowed (requester : User) (gif : GifRow) : Bool :=
  decide (gif.uploadedById = some requester.id) ||
    ["moderator", "administrator"].contains requester.role

/-- `GifController.delete`: when authorized, issue
`DELETE FROM Gif WHERE fileUniqueId = ?`; otherwise throw 401 Unauthorized. -/
def delete (requester : User) (db : DB) (gif : GifRow) : Except JsError DB :=
  if deleteAllowed requester gif then
    Except.ok { db with gifs := db.gifs.filter (fun g => !decide (g.fileUniqueId = gif.fileUniqueId)) }
  else
    Except.error ⟨"UnauthorizedError",
      "Unauthorized. Only moderators or administrators can delete GIFs. Original submitters can delete a GIF before it is vetted.", none⟩

end GifController

/-- A storage write issued during `GifController.update`. -/
inductive DbOp where
  | gifUpdate (rating : Option String) (approvedById : Option Nat) (fileUniqueId : String)
  | tagInsert (t : TagRow)
  | gifTagInsert (fileUniqueId tag : String)
  | gifTagDelete (fileUniqueId tag : String)
  | sourceInsert (source fileUniqueId : String)
  | sourceDelete (source fileUniqueId : String)
deriving DecidableEq, Repr

/-- Whether a write is the item-row statement
`UPDATE Gif SET rating = ?, approvedById = ? WHERE fileUniqueId = ?`. -/
def DbOp.isGifUpdate : DbOp → Bool
  | .gifUpdate _ _ _ => true
  | _ => false

/-- Effect of one write on the database. `Gif.update` touches only the
`rating` and `approvedById` columns of the matching row; the other writes
touch the `Tag`, `GifTag` and `Source` tables. -/
def applyOp (db : DB) : DbOp → DB
  | .gifUpdate r a fid =>
      { db with gifs := db.gifs.map fun g =>
          if g.fileUniqueId = fid then { g with rating := r, approvedById := a } else g }
  | .tagInsert t => { db with tags := db.tags ++ [t] }
  | .gifTagInsert fid tg => { db with gifTags := db.gifTags ++ [⟨fid, tg⟩] }
  | .gifTagDelete fid tg =>
      { db with gifTags := db.gifTags.filter fun r =>
          !(decide (r.fileUniqueId = fid) && decide (r.tag = tg)) }
  | .sourceInsert s fid => { db with sources := db.sources ++ [⟨s, fid⟩] }
  | .sourceDelete s fid =>
      { db with sources := db.sources.filter fun r =>
          !(decide (r.source = s) && decide (r.fileUniqueId = fid)) }

/-- Apply a list of writes in order. -/
def applyOps (db : DB) (ops : List DbOp) : DB := ops.foldl applyOp db

/-- The tag-resolution loop of `GifController.update`: each name is resolved
through `Tag.readByTagName`; a name resolving to nothing becomes a freshly
created `general` tag (visible to the resolution of the following names).
Returns the updated database, the resolved tag rows and the `Tag` inserts
issued. -/
def resolveTags (db : DB) : List String → DB × List TagRow × List DbOp
  | [] => (db, [], [])
  | n :: ns =>
    match Tag.readByTagName db n with
    | some t =>
        let r := resolveTags db ns
        (r.1, t :: r.2.1, r.2.2)
    | none =>
        let t : TagRow := ⟨n, "general"⟩
        let db2 := { db with tags := db.tags ++ [t] }
        let r := resolveTags db2 ns
        (r.1, t :: r.2.1, DbOp.tagInsert t :: r.2.2)

/-- The update request body: each field is absent or supplies a new value
(`changes.rating`, `changes.tags`, `changes.sources`). -/
structure GifChanges where
  rating : Option String
  tags : Option (List String)
  sources : Option (List String)
deriving DecidableEq, Repr

/-- The rating branch of `GifController.update`: under `if (changes.rating)`
the in-memory rating is overwritten and `gif.update()` issues the single
item-row update statement; otherwise nothing is written. -/
def ratingStep (gif : GifRow) (changes : GifChanges) : GifRow × List DbOp :=
  if jsTruthyStr changes.rating then
    ({ gif with rating := changes.rating },
      [DbOp.gifUpdate changes.rating gif.approvedById gif.fileUniqueId])
  else (gif, [])

/-- The tags branch of `GifController.update`: under `if (changes.tags)` the
names are resolved (creating missing tags), then the `tags` setter issues
the `GifTag` inserts and deletes of the reconciliation. Returns the database
after the `Tag` inserts and the writes issued. -/
def tagsStep (db : DB) (gif : GifRow) (changes : GifChanges) :
    DB × List DbOp :=
  match changes.tags with
  | none => (db, [])
  | some names =>
      let r := resolveTags db names
      let current :=
        (r.1.gifTags.filter (fun gt => decide (gt.fileUniqueId = gif.fileUniqueId))).map (·.tag)
      let rec2 := Gif.setTags current (r.2.1.map (·.tag))
      (r.1, r.2.2 ++
        rec2.inserted.map (DbOp.gifTagInsert gif.fileUniqueId) ++
        rec2.deleted.map (DbOp.gifTagDelete gif.fileUniqueId))

/-- The sources branch of `GifController.update`: under
`if (changes.sources)` the `sources` setter issues the `Source` inserts and
deletes of the reconciliation (string reconciliation identical to the tag
setter's). -/
def sourcesStep (db2 : DB) (gif : GifRow) (changes : GifChanges) :
    List DbOp :=
  match changes.sources with
  | none => []
  | some urls =>
      let current :=
        (db2.sources.filter (fun s => decide (s.fileUniqueId = gif.fileUniqueId))).map (·.source)
      let rec3 := Gif.setTags current urls
      rec3.inserted.map (fun s => DbOp.sourceInsert s gif.fileUniqueId) ++
        rec3.deleted.map (fun s => DbOp.sourceDelete s gif.fileUniqueId)

/-- `GifController.update` with every write succeeding, as the in-memory gif
it returns together with the trace of storage writes it issues: the item-row
update only under `if (changes.rating)`, then the tag resolution and the
tag-set reconciliation writes under `if (changes.tags)`, then the source-set
reconciliation writes under `if (changes.sources)`. -/
def GifController.update (db : DB) (gif : GifRow) (changes : GifChanges) :
    GifRow × List DbOp :=
  ((ratingStep gif changes).1,
    (ratingStep gif changes).2 ++ (tagsStep db gif changes).2 ++
      sourcesStep (tagsStep db gif changes).1 gif changes)

/-- `GifController.update(gif, {tags})` with fallible tag writes, as the
pair of (what the awaiting caller of `update` receives, the unhandled
rejection channel). The assignment `gif.tags = ...` runs `Gif.setTagsRun`
inside an async IIFE whose promise the setter discards, so `update` resolves
with the gif regardless and any `GifTagAddError`/`GifTagDeleteError` becomes
an unhandled promise rejection. -/
def GifController.updateWithTags (gif : GifRow) (currentTags newTags : List String)
    (insertFail deleteFail : String → Option String) :
    Except JsError GifRow × Option JsError :=
  (Except.ok gif,
    match Gif.setTagsRun currentTags newTags insertFail deleteFail with
    | Except.ok _ => none
    | Except.error e => some e)

/-- Positive-tag matching as the specification words it: the item carries a
tag whose name equals the token or one of whose aliases equals the token.
(Stated from the spec, to compare the implemented search against it.) -/
def specItemMatchesToken (db : DB) (g : GifRow) (token : String) : Prop :=
  ∃ gt ∈ db.gifTags, gt.fileUniqueId = g.fileUniqueId ∧
    (gt.tag = token ∨ ∃ a ∈ db.tagAliases, a.tag = gt.tag ∧ a.aliasName = token)

instance (db : DB) (g : GifRow) (token : String) :
    Decidable (specItemMatchesToken db g token) := by
  unfold specItemMatchesToken; infer_instance

deriving instance DecidableEq for Except

/-- Fixture: a rated (`safe`) gif with key `G1`, uploaded by user 1. -/
def exGifSafe : GifRow :=
  { fileId := "file1", fileUniqueId := "G1", width := 320, height := 240,
    duration := 3, fileName := none, mimeType := some "video/mp4",
    fileSize := some 1000, thumbFileId := "t1", thumbFileUniqueId := "TU1",
    thumbWidth := 90, thumbHeight := 90, thumbFileSize := some 64,
    rating := some "safe", uploadedById := some 1, approvedById := none }

/-- Fixture: `G1` carries the single tag `fox`, and `fox` has the two
aliases `a1` and `a2`. -/
def exDbTwoAliases : DB :=
  { gifs := [exGifSafe], tags := [⟨"fox", "general"⟩],
    gifTags := [⟨"G1", "fox"⟩],
    tagAliases := [⟨"fox", "a1"⟩, ⟨"fox", "a2"⟩], sources := [] }

/-- Fixture: `G1` carries the single tag `fox`, and `fox` has the single
alias `foxes`. -/
def exDbFoxes : DB :=
  { gifs := [exGifSafe], tags := [⟨"fox", "general"⟩],
    gifTags := [⟨"G1", "fox"⟩],
    tagAliases := [⟨"fox", "foxes"⟩], sources := [] }

/-- Fixture: `G1` is rated but carries no tag at all. -/
def exDbUntagged : DB :=
  { gifs := [exGifSafe], tags := [], gifTags := [], tagAliases := [],
    sources := [] }

/-- Fixture: canonical tags `a` and `b` exist, and `b` registers the alias
`a` — an alias name colliding with another tag's canonical name, which the
schema does not forbid. -/
def exDbShadowedTag : DB :=
  { gifs := [], tags := [⟨"a", "general"⟩, ⟨"b", "general"⟩], gifTags := [],
    tagAliases := [⟨"b", "a"⟩], sources := [] }

/-- Fixture: the uploader of `exGifSafe`, holding no elevated role. -/
def exUploader : User := { id := 1, role := "user", sfwMode := false }

/-- Fixture: a second, unrelated user. -/
def exOtherUser : User := { id := 2, role := "user", sfwMode := false }

/-- Fixture: an empty database. -/
def exDbEmpty : DB :=
  { gifs := [], tags := [], gifTags := [], tagAliases := [], sources := [] }

/-- Fixture: raw ingestion properties for key `G9` (no uploader set yet). -/
def exProps : GifProps :=
  { fileId := "file9", fileUniqueId := "G9", width := 100, height := 100,
    duration := 2, fileName := some "clip.mp4", mimeType := some "video/mp4",
    fileSize := some 2000, thumbFileId := "t9", thumbFileUniqueId := "TU9",
    thumbWidth := 32, thumbHeight := 32, thumbFileSize := some 16,
    rating := none, uploadedById := none, approvedById := none }

/-- Fixture: an insert-failure oracle under which storing tag `newtag`
fails with cause `connection reset`. -/
def exInsertFail : String → Option String :=
  fun t => if t = "newtag" then some "connection reset" else none

/-- The immutable-column relation between two gif rows: every stored column
other than `rating` and `approvedById` agrees. -/
def gifImmut (a b : GifRow) : Prop :=
  a.fileId = b.fileId ∧ a.fileUniqueId = b.fileUniqueId ∧ a.width = b.width ∧
    a.height = b.height ∧ a.duration = b.duration ∧ a.fileName = b.fileName ∧
    a.mimeType = b.mimeType ∧ a.fileSize = b.fileSize ∧
    a.thumbFileId = b.thumbFileId ∧ a.thumbFileUniqueId = b.thumbFileUniqueId ∧
    a.thumbWidth = b.thumbWidth ∧ a.thumbHeight = b.thumbHeight ∧
    a.thumbFileSize = b.thumbFileSize ∧ a.uploadedById = b.uploadedById

lemma gifImmut_refl (a : GifRow) : gifImmut a a := by
  unfold gifImmut; repeat constructor

lemma gifImmut_trans {a b c : GifRow} (h1 : gifImmut a b) (h2 : gifImmut b c) :
    gifImmut a c := by
  unfold gifImmut at *
  obtain ⟨e1, e2, e3, e4, e5, e6, e7, e8, e9, e10, e11, e12, e13, e14⟩ := h1
  obtain ⟨f1, f2, f3, f4, f5, f6, f7, f8, f9, f10, f11, f12, f13, f14⟩ := h2
  exact ⟨e1.trans f1, e2.trans f2, e3.trans f3, e4.trans f4, e5.trans f5,
    e6.trans f6, e7.trans f7, e8.trans f8, e9.trans f9, e10.trans f10,
    e11.trans f11, e12.trans f12, e13.trans f13, e14.trans f14⟩

lemma forall₂_gifImmut_refl (l : List GifRow) : List.Forall₂ gifImmut l l := by
  induction l with
  | nil => exact List.Forall₂.nil
  | cons a t ih => exact List.Forall₂.cons (gifImmut_refl a) ih

lemma forall₂_gifImmut_map (f : GifRow → GifRow) (hf : ∀ a, gifImmut a (f a))
    (l : List GifRow) : List.Forall₂ gifImmut l (l.map f) := by
  induction l with
  | nil => exact List.Forall₂.nil
  | cons a t ih => exact List.Forall₂.cons (hf a) ih

lemma forall₂_gifImmut_trans : ∀ {l1 l2 l3 : List GifRow},
    List.Forall₂ gifImmut l1 l2 → List.Forall₂ gifImmut l2 l3 →
    List.Forall₂ gifImmut l1 l3 := by
  intro l1 l2 l3 h1
  induction h1 generalizing l3 with
  | nil => intro h2; cases h2; exact List.Forall₂.nil
  | cons hab htl ih =>
      intro h2
      cases h2 with
      | cons hbc htl2 => exact List.Forall₂.cons (gifImmut_trans hab hbc) (ih htl2)

/-- Every single storage write leaves the immutable gif columns unchanged. -/
lemma applyOp_frame (db : DB) (op : DbOp) :
    List.Forall₂ gifImmut db.gifs (applyOp db op).gifs := by
  cases op with
  | gifUpdate r a fid =>
      refine forall₂_gifImmut_map _ (fun g => ?_) db.gifs
      by_cases h : g.fileUniqueId = fid
      · simp [gifImmut, h]
      · simp only [h, if_neg, not_false_iff, if_false]
        exact gifImmut_refl g
  | tagInsert t => exact forall₂_gifImmut_refl _
  | gifTagInsert fid tg => exact forall₂_gifImmut_refl _
  | gifTagDelete fid tg => exact forall₂_gifImmut_refl _
  | sourceInsert s fid => exact forall₂_gifImmut_refl _
  | sourceDelete s fid => exact forall₂_gifImmut_refl _

/-- Every sequence of storage writes leaves the immutable gif columns
unchanged (in particular, the gif list keeps its length and order). -/
lemma applyOps_frame (ops : List DbOp) : ∀ db : DB,
    List.Forall₂ gifImmut db.gifs (applyOps db ops).gifs := by
  induction ops with
  | nil => intro db; exact forall₂_gifImmut_refl _
  | cons op rest ih =>
      intro db
      exact forall₂_gifImmut_trans (applyOp_frame db op) (ih (applyOp db op))

namespace Gif

lemma mem_groupKeys (k : String) : ∀ (rows : List JoinRow) (seen : List String),
    k ∈ groupKeys seen rows ↔
      (∃ r ∈ rows, r.gif.fileUniqueId = k) ∧ k ∉ seen := by
  intro rows
  induction rows with
  | nil => intro seen; simp [groupKeys]
  | cons r rs ih =>
      intro seen
      by_cases hm : r.gif.fileUniqueId ∈ seen
      · rw [groupKeys, if_pos hm, ih]
        constructor
        · rintro ⟨⟨r', hr', hk⟩, hs⟩
          exact ⟨⟨r', List.mem_cons_of_mem _ hr', hk⟩, hs⟩
        · rintro ⟨⟨r', hr', hk⟩, hs⟩
          rcases List.mem_cons.mp hr' with h | h
          · exact absurd (hk ▸ h ▸ hm) hs
          · exact ⟨⟨r', h, hk⟩, hs⟩
      · rw [groupKeys, if_neg hm]
        rw [List.mem_cons, ih]
        constructor
        · rintro (rfl | ⟨⟨r', hr', hk⟩, hs⟩)
          · exact ⟨⟨r, List.mem_cons_self r rs, rfl⟩, hm⟩
          · exact ⟨⟨r', List.mem_cons_of_mem _ hr', hk⟩,
              fun hk2 => hs (List.mem_cons_of_mem _ hk2)⟩
        · rintro ⟨⟨r', hr', hk⟩, hs⟩
          rcases List.mem_cons.mp hr' with h | h
          · exact Or.inl (hk ▸ h ▸ rfl)
          · by_cases he : k = r.gif.fileUniqueId
            · exact Or.inl he
            · exact Or.inr ⟨⟨r', h, hk⟩, by
                rw [List.mem_cons]
                rintro (h2 | h2)
                · exact he h2
                · exact hs h2⟩

lemma mem_distinctGifs (g : GifRow) : ∀ (rows : List JoinRow) (seen : List GifRow),
    g ∈ distinctGifs seen rows ↔
      (∃ r ∈ rows, r.gif = g) ∧ g ∉ seen := by
  intro rows
  induction rows with
  | nil => intro seen; simp [distinctGifs]
  | cons r rs ih =>
      intro seen
      by_cases hm : r.gif ∈ seen
      · rw [distinctGifs, if_pos hm, ih]
        constructor
        · rintro ⟨⟨r', hr', hk⟩, hs⟩
          exact ⟨⟨r', List.mem_cons_of_mem _ hr', hk⟩, hs⟩
        · rintro ⟨⟨r', hr', hk⟩, hs⟩
          rcases List.mem_cons.mp hr' with h | h
          · exact absurd (hk ▸ h ▸ hm) hs
          · exact ⟨⟨r', h, hk⟩, hs⟩
      · rw [distinctGifs, if_neg hm]
        rw [List.mem_cons, ih]
        constructor
        · rintro (rfl | ⟨⟨r', hr', hk⟩, hs⟩)
          · exact ⟨⟨r, List.mem_cons_self r rs, rfl⟩, hm⟩
          · exact ⟨⟨r', List.mem_cons_of_mem _ hr', hk⟩,
              fun hk2 => hs (List.mem_cons_of_mem _ hk2)⟩
        · rintro ⟨⟨r', hr', hk⟩, hs⟩
          rcases List.mem_cons.mp hr' with h | h
          · exact Or.inl (hk ▸ h ▸ rfl)
          · by_cases he : g = r.gif
            · exact Or.inl he
            · exact Or.inr ⟨⟨r', h, hk⟩, by
                rw [List.mem_cons]
                rintro (h2 | h2)
                · exact he h2
                · exact hs h2⟩

lemma mem_joinRows {db : DB} {r : JoinRow} :
    r ∈ joinRows db ↔
      r.gif ∈ db.gifs ∧ r.gt ∈ db.gifTags ∧ r.t ∈ db.tags ∧
        r.gt.fileUniqueId = r.gif.fileUniqueId ∧ r.t.tag = r.gt.tag ∧
        r.al ∈ aliasRowsFor db r.t := by
  cases r with
  | mk g gt t al =>
      simp only [joinRows, List.mem_flatMap, List.mem_filter, List.mem_map,
        decide_eq_true_eq, JoinRow.mk.injEq]
      constructor
      · rintro ⟨g', hg', gt', ⟨hgt', hgtid⟩, t', ⟨ht', httag⟩, al', hal', rfl, rfl, rfl, rfl⟩
        exact ⟨hg', hgt', ht', hgtid, httag, hal'⟩
      · rintro ⟨hg, hgt, ht, hid, htag, hal⟩
        exact ⟨g, hg, gt, ⟨hgt, hid⟩, t, ⟨ht, htag⟩, al, hal, rfl, rfl, rfl, rfl⟩

lemma aliasRowsFor_ne_nil (db : DB) (t : TagRow) :
    ∃ al, al ∈ aliasRowsFor db t := by
  unfold aliasRowsFor
  by_cases h : (db.tagAliases.filter fun a => decide (a.tag = t.tag)).isEmpty
  · exact ⟨none, by simp [h]⟩
  · rw [List.isEmpty_iff] at h
    refine ⟨some ((db.tagAliases.filter fun a => decide (a.tag = t.tag)).head h), ?_⟩
    rw [if_neg (by simpa [List.isEmpty_iff] using h), List.mem_map]
    exact ⟨_, List.head_mem h, rfl⟩

lemma mem_visibleRows {db : DB} {rating : Option String} {r : JoinRow} :
    r ∈ visibleRows db rating ↔ r ∈ joinRows db ∧ ratingOk rating r = true := by
  unfold visibleRows
  exact List.mem_filter

lemma ratingOk_spec {rating : Option String} {r : JoinRow}
    (h : ratingOk rating r = true) :
    r.gif.rating.isSome = true ∧ (jsTruthyStr rating = true → r.gif.rating = rating) := by
  unfold ratingOk at h
  simp only [Bool.and_eq_true, Bool.or_eq_true, Bool.not_eq_true',
    decide_eq_true_eq] at h
  obtain ⟨h1, h2⟩ := h
  refine ⟨h1, fun ht => ?_⟩
  rcases h2 with h2 | h2
  · rw [ht] at h2; cases h2
  · exact h2

lemma mem_incRows {db : DB} {inc : List String} {rating : Option String}
    {r : JoinRow} :
    r ∈ incRows db inc rating ↔
      r ∈ visibleRows db rating ∧ rowMatchesInclude inc r = true := by
  unfold incRows
  exact List.mem_filter

lemma exists_incRow_of_mem_searchAllInc {db : DB} {inc : List String}
    {rating : Option String} {g : GifRow} (h : g ∈ searchAllInc db inc rating) :
    ∃ r, r ∈ incRows db inc rating ∧ r.gif = g := by
  unfold searchAllInc at h
  rw [List.mem_filterMap] at h
  obtain ⟨k, _, hf⟩ := h
  split at hf
  · rw [Option.map_eq_some'] at hf
    obtain ⟨r0, hr0, hrg⟩ := hf
    have hmem := List.mem_of_mem_head? hr0
    rw [List.mem_filter] at hmem
    exact ⟨r0, hmem.1, hrg⟩
  · cases hf

lemma exists_visible_of_mem_searchAllNoTags {db : DB} {rating : Option String}
    {g : GifRow} (h : g ∈ searchAllNoTags db rating) :
    ∃ r, r ∈ visibleRows db rating ∧ r.gif = g := by
  unfold searchAllNoTags at h
  rw [mem_distinctGifs] at h
  obtain ⟨⟨r, hr, hrg⟩, _⟩ := h
  exact ⟨r, hr, hrg⟩

lemma search_of_all_positive {db : DB} {tags : List String}
    {rating : Option String} (page limit : Nat)
    (hpos : ∀ t ∈ tags, startsWithDash t = false) :
    search db tags rating page limit =
      Except.ok ((((if tags.isEmpty then searchAllNoTags db rating
          else searchAllInc db tags rating)).drop (limit * page)).take limit) := by
  have hfilter : tags.filter (fun t => !startsWithDash t) = tags :=
    List.filter_eq_self.mpr (fun t ht => by rw [hpos t ht]; rfl)
  have hneg : tags.filter (fun t => startsWithDash t) = [] :=
    List.filter_eq_nil_iff.mpr (fun t ht => by rw [hpos t ht]; exact Bool.false_ne_true)
  unfold search
  rw [hfilter, hneg]
  rfl

end Gif

lemma filter_key_nil {α β : Type} [DecidableEq β] (f : α → β) (c : β) :
    ∀ l : List α, (∀ y ∈ l, f y ≠ c) → l.filter (fun y => decide (f y = c)) = [] := by
  intro l h
  rw [List.filter_eq_nil_iff]
  intro a ha
  simpa using h a ha

lemma filter_key_singleton {α β : Type} [DecidableEq β] (f : α → β) :
    ∀ (l : List α) (x : α), (l.map f).Nodup → x ∈ l →
      l.filter (fun y => decide (f y = f x)) = [x] := by
  intro l
  induction l with
  | nil => intro x _ hx; cases hx
  | cons a t ih =>
      intro x hnd hx
      rw [List.map_cons, List.nodup_cons] at hnd
      obtain ⟨hfa, hnd'⟩ := hnd
      rcases List.mem_cons.mp hx with rfl | hx'
      · have htail : t.filter (fun y => decide (f y = f x)) = [] :=
          filter_key_nil f (f x) t
            (fun y hy he => hfa (he ▸ List.mem_map_of_mem f hy))
        rw [List.filter_cons_of_pos (by simp), htail]
      · have hne : f a ≠ f x := fun he => hfa (he ▸ List.mem_map_of_mem f hx')
        rw [List.filter_cons_of_neg (by simpa using hne), ih x hnd' hx']

namespace Tag

lemma aliasJoin_eq_nil {as : List TagAliasRow} {ts : List TagRow} {n : String}
    (h : ∀ a ∈ as, a.aliasName ≠ n) : aliasJoin as ts n = [] := by
  rw [List.eq_nil_iff_forall_not_mem]
  intro x hx
  rw [aliasJoin, List.mem_flatMap] at hx
  obtain ⟨a, ha, hxa⟩ := hx
  rw [if_neg (h a ha)] at hxa
  cases hxa

lemma aliasJoin_of_mem (ts : List TagRow) :
    ∀ (as : List TagAliasRow) (a : TagAliasRow),
      (as.map TagAliasRow.aliasName).Nodup → a ∈ as →
      aliasJoin as ts a.aliasName = ts.filter (fun t => decide (t.tag = a.tag)) := by
  intro as
  induction as with
  | nil => intro a _ ha; cases ha
  | cons b bs ih =>
      intro a hnd ha
      rw [List.map_cons, List.nodup_cons] at hnd
      obtain ⟨hb, hnd'⟩ := hnd
      rcases List.mem_cons.mp ha with rfl | ha'
      · have htail : aliasJoin bs ts a.aliasName =
            [] :=
          aliasJoin_eq_nil
            (fun c hc he => hb (he ▸ List.mem_map_of_mem _ hc))
        unfold aliasJoin
        rw [List.flatMap_cons, if_pos rfl]
        unfold aliasJoin at htail
        rw [htail, List.append_nil]
      · have hne : b.aliasName ≠ a.aliasName :=
          fun he => hb (he ▸ List.mem_map_of_mem _ ha')
        unfold aliasJoin
        rw [List.flatMap_cons, if_neg hne]
        have := ih a hnd' ha'
        unfold aliasJoin at this
        rw [this, List.nil_append]

end Tag

lemma fileUniqueId_inj {l : List GifRow}
    (h : (l.map GifRow.fileUniqueId).Nodup) {a b : GifRow}
    (ha : a ∈ l) (hb : b ∈ l) (he : a.fileUniqueId = b.fileUniqueId) :
    a = b :=
  List.inj_on_of_nodup_map h ha hb he

lemma mem_gifs_of_mem_incRows {db : DB} {inc : List String}
    {rating : Option String} {r : Gif.JoinRow}
    (h : r ∈ Gif.incRows db inc rating) : r.gif ∈ db.gifs :=
  (Gif.mem_joinRows.mp (Gif.mem_visibleRows.mp (Gif.mem_incRows.mp h).1).1).1

lemma resolveTags_no_gifUpdate (ns : List String) : ∀ db : DB,
    ((resolveTags db ns).2.2).any DbOp.isGifUpdate = false := by
  induction ns with
  | nil => intro db; rfl
  | cons n t ih =>
      intro db
      unfold resolveTags
      cases Tag.readByTagName db n with
      | some tg => simpa using ih db
      | none => simpa [DbOp.isGifUpdate] using ih _

lemma any_isGifUpdate_map_false {α : Type} (f : α → DbOp)
    (hf : ∀ a, DbOp.isGifUpdate (f a) = false) (l : List α) :
    (l.map f).any DbOp.isGifUpdate = false := by
  induction l with
  | nil => rfl
  | cons a t ih => simp [hf a, ih]

lemma tagsStep_no_gifUpdate (db : DB) (gif : GifRow) (changes : GifChanges) :
    ((tagsStep db gif changes).2).any DbOp.isGifUpdate = false := by
  unfold tagsStep
  cases changes.tags with
  | none => rfl
  | some names =>
      simp only [List.any_append, Bool.or_eq_false_iff]
      refine ⟨⟨resolveTags_no_gifUpdate names db, ?_⟩, ?_⟩
      · exact any_isGifUpdate_map_false (DbOp.gifTagInsert gif.fileUniqueId)
          (fun a => rfl) _
      · exact any_isGifUpdate_map_false (DbOp.gifTagDelete gif.fileUniqueId)
          (fun a => rfl) _

lemma sourcesStep_no_gifUpdate (db2 : DB) (gif : GifRow) (changes : GifChanges) :
    (sourcesStep db2 gif changes).any DbOp.isGifUpdate = false := by
  unfold sourcesStep
  cases changes.sources with
  | none => rfl
  | some urls =>
      simp only [List.any_append, Bool.or_eq_false_iff]
      exact ⟨any_isGifUpdate_map_false (fun s => DbOp.sourceInsert s gif.fileUniqueId)
          (fun a => rfl) _,
        any_isGifUpdate_map_false (fun s => DbOp.sourceDelete s gif.fileUniqueId)
          (fun a => rfl) _⟩

set_option maxRecDepth 40000 in
/-- C2: for every query containing a negative token, the SQL text the code
builds has an unclosed `NOT IN (` parenthesis (net balance `+1`, against `0`
for a purely positive query), so the store rejects the statement and the
search throws instead of returning the filtered items; moreover the bound
negative values keep their leading `-`. Evaluated at the failing input
`tags = ["-nsfw"]`. -/
theorem c2_negative_tag_sql_malformed :
    Gif.sqlParenBalance (Gif.buildSearchSql ["-nsfw"] none) = 1 ∧
    Gif.sqlParenBalance (Gif.buildSearchSql ["red", "fox"] (some "safe")) = 0 ∧
    "-nsfw" ∈ Gif.buildSearchValues ["-nsfw"] none 0 32 ∧
    Gif.search exDbFoxes ["-nsfw"] none 0 32 =
      Except.error ⟨"GifReadError", "Error reading Gifs from database.", some "SQL syntax error"⟩ := by
  refine ⟨?_, ?_, by decide, by decide⟩
  · decide
  · decide

/-- C4: evaluated at the failing input — the requester equals the uploader,
holds no elevated role, and the gif already has the rating `safe` — the
code's authorization check passes and the delete succeeds, although the
claim (and the code's own 401 message) says the uploader is Unauthorized
once a rating has been assigned. -/
theorem c4_uploader_deletes_rated_gif :
    exUploader.role = "user" ∧
    exGifSafe.uploadedById = some exUploader.id ∧
    exGifSafe.rating = some "safe" ∧
    GifController.deleteAllowed exUploader exGifSafe = true ∧
    GifController.delete exUploader exDbUntagged exGifSafe =
      Except.ok { exDbUntagged with gifs := [] } := by
  decide

/-- C9: evaluated at the failing input — replacing the tags of a gif with
`["newtag"]` while the `GifTag` insert fails — the inner setter body does
re-label the storage error as `GifTagAddError` with the cause preserved
(identifying the add phase), but `GifController.update`'s caller still
receives the gif successfully: the rejection surfaces only on the unhandled
channel of the discarded setter promise, never to the caller. -/
theorem c9_rejection_never_reaches_caller :
    Gif.setTagsRun [] ["newtag"] exInsertFail (fun _ => none) =
      Except.error ⟨"GifTagAddError", "Error adding Tags to Gif in database",
        some "connection reset"⟩ ∧
    GifController.updateWithTags exGifSafe [] ["newtag"] exInsertFail (fun _ => none) =
      (Except.ok exGifSafe,
        some ⟨"GifTagAddError", "Error adding Tags to Gif in database",
          some "connection reset"⟩) := by
  decide

/-- C1 counterexample: with positive tokens `["red", "fox"]`, the item
tagged only `fox` (whose tag carries two aliases) is returned, because the
HAVING clause counts two join rows for the single matching tag; yet the item
does not match the token `red`, so an item matching only a strict subset of
the positive tokens is returned. -/
theorem c1_subset_match_returned :
    Gif.search exDbTwoAliases ["red", "fox"] none 0 32 = Except.ok [exGifSafe] ∧
    ¬ specItemMatchesToken exDbTwoAliases exGifSafe "red" ∧
    "red" ∈ ["red", "fox"] := by
  decide

/-- C6 counterexample: tag `b` registers the alias `a`, which is also the
canonical name of tag `a`; resolving the canonical name `a` then returns
tag `b`, not tag `a`, so resolving a canonical tag's own name does not
always return that tag. -/
theorem c6_canonical_name_shadowed_by_alias :
    Tag.readByTagName exDbShadowedTag "a" = some ⟨"b", "general"⟩ ∧
    (⟨"a", "general"⟩ : TagRow) ∈ exDbShadowedTag.tags ∧
    some (⟨"b", "general"⟩ : TagRow) ≠ some (⟨"a", "general"⟩ : TagRow) := by
  decide

/-- C8 counterexample: a rated item carrying no tags is not returned by the
empty query — the generated statement inner-joins `GifTag`, so the claim's
"including rated items that currently carry no tags" fails. -/
theorem c8_untagged_rated_item_missing :
    Gif.search exDbUntagged [] none 0 32 = Except.ok [] ∧
    exGifSafe ∈ exDbUntagged.gifs ∧ exGifSafe.rating.isSome = true := by
  decide



/-- C3: every item a search returns has a non-null rating, and when a
(non-empty, hence truthy) rating argument is supplied, every returned item's
rating equals exactly that rating — so `rating = "safe"` never returns an
explicit or unrated item. -/
theorem c3_rating_gate (db : DB) (tags : List String) (rating : Option String)
    (page limit : Nat) (items : List GifRow) (g : GifRow)
    (hok : Gif.search db tags rating page limit = Except.ok items)
    (hg : g ∈ items) :
    g.rating.isSome = true ∧
      ∀ r : String, rating = some r → r ≠ "" → g.rating = some r := by
  have hvis : ∃ r0, r0 ∈ Gif.visibleRows db rating ∧ r0.gif = g := by
    simp only [Gif.search] at hok
    split at hok
    · rw [Except.ok.injEq] at hok
      subst hok
      have hg2 := List.mem_of_mem_drop (List.mem_of_mem_take hg)
      split at hg2
      · exact Gif.exists_visible_of_mem_searchAllNoTags hg2
      · obtain ⟨r0, hr0, hrg⟩ := Gif.exists_incRow_of_mem_searchAllInc hg2
        exact ⟨r0, (Gif.mem_incRows.mp hr0).1, hrg⟩
    · cases hok
  obtain ⟨r0, hr0, hrg⟩ := hvis
  have hspec := Gif.ratingOk_spec (Gif.mem_visibleRows.mp hr0).2
  rw [hrg] at hspec
  refine ⟨hspec.1, fun r hr hrne => ?_⟩
  have ht : jsTruthyStr rating = true := by
    rw [hr]
    simp only [jsTruthyStr]
    cases hemp : r.isEmpty
    · rfl
    · exact absurd ((String.isEmpty_iff r).mp hemp) hrne
  rw [hspec.2 ht, hr]

/-- C3 witness: searching the fixture with `rating = "safe"` returns
`exGifSafe`, whose rating is non-null and equal to `safe`. -/
theorem c3_rating_gate_witness :
    exGifSafe.rating.isSome = true ∧ exGifSafe.rating = some "safe" := by
  have h := c3_rating_gate exDbFoxes ["fox"] (some "safe") 0 32 [exGifSafe]
    exGifSafe (by decide) (by decide)
  exact ⟨h.1, h.2 "safe" rfl (by decide)⟩

/-- C8 (amended): the empty query returns exactly the rated items that
carry at least one tag (whose `Tag` row exists), restricted to the supplied
rating when one is truthily given, subject only to pagination; rated items
carrying no tags are dropped by the inner `JOIN GifTag`. -/
theorem c8_empty_query_returns_tagged_rated (db : DB) (rating : Option String)
    (g : GifRow) :
    (g ∈ Gif.searchAllNoTags db rating ↔
      g ∈ db.gifs ∧ g.rating.isSome = true ∧
        (jsTruthyStr rating = true → g.rating = rating) ∧
        ∃ gt ∈ db.gifTags, gt.fileUniqueId = g.fileUniqueId ∧
          ∃ t ∈ db.tags, t.tag = gt.tag) ∧
    ∀ page limit : Nat, Gif.search db [] rating page limit =
      Except.ok (((Gif.searchAllNoTags db rating).drop (limit * page)).take limit) := by
  constructor
  · constructor
    · intro hg
      obtain ⟨r, hr, hrg⟩ := Gif.exists_visible_of_mem_searchAllNoTags hg
      obtain ⟨hjoin, hok⟩ := Gif.mem_visibleRows.mp hr
      obtain ⟨hgifs, hgt, ht, hid, htag, _⟩ := Gif.mem_joinRows.mp hjoin
      have hrate := Gif.ratingOk_spec hok
      rw [hrg] at hrate hgifs
      rw [hrg] at hid
      exact ⟨hgifs, hrate.1, hrate.2, r.gt, hgt, hid, r.t, ht, htag⟩
    · rintro ⟨hgifs, hsome, hmatch, gt, hgt, hid, t, ht, htag⟩
      obtain ⟨al, hal⟩ := Gif.aliasRowsFor_ne_nil db t
      have hjoin : (⟨g, gt, t, al⟩ : Gif.JoinRow) ∈ Gif.joinRows db :=
        Gif.mem_joinRows.mpr ⟨hgifs, hgt, ht, hid, htag, hal⟩
      have hok : Gif.ratingOk rating ⟨g, gt, t, al⟩ = true := by
        unfold Gif.ratingOk
        rw [hsome]
        cases htr : jsTruthyStr rating
        · rfl
        · simp [hmatch htr]
      unfold Gif.searchAllNoTags
      rw [Gif.mem_distinctGifs]
      refine ⟨⟨⟨g, gt, t, al⟩, ?_, rfl⟩, List.not_mem_nil g⟩
      exact Gif.mem_visibleRows.mpr ⟨hjoin, hok⟩
  · intro page limit
    have h := @Gif.search_of_all_positive db [] rating
      page limit (fun t ht => absurd ht (List.not_mem_nil t))
    simpa using h

/-- C1 (amended): for a query of positive tokens (none `-`-prefixed,
positiveTags nonempty) over a database with unique gif keys, an item is
returned exactly when it is in the table and its number of gate-passing
matching join rows equals the number of positive tokens — the HAVING clause
compares a row count (one row per alias of a carried tag, via the left
join), not a count of distinct matching tag names, so alias multiplicity can
both admit an item matching only a strict subset of the tokens and exclude
an item matching all of them. -/
theorem c1_having_counts_join_rows (db : DB) (tags : List String)
    (rating : Option String) (g : GifRow)
    (hkeys : (db.gifs.map GifRow.fileUniqueId).Nodup)
    (hne : tags ≠ [])
    (hpos : ∀ t ∈ tags, startsWithDash t = false) :
    (g ∈ Gif.searchAllInc db tags rating ↔
      g ∈ db.gifs ∧ Gif.matchRowCount db tags rating g = tags.length) ∧
    ∀ page limit : Nat, Gif.search db tags rating page limit =
      Except.ok (((Gif.searchAllInc db tags rating).drop (limit * page)).take limit) := by
  constructor
  · constructor
    · intro hg
      unfold Gif.searchAllInc at hg
      rw [List.mem_filterMap] at hg
      obtain ⟨k, _, hf⟩ := hg
      split at hf
      case isTrue hlen =>
        rw [Option.map_eq_some'] at hf
        obtain ⟨r0, hr0, hrg⟩ := hf
        have hmem := List.mem_of_mem_head? hr0
        rw [List.mem_filter, decide_eq_true_eq] at hmem
        obtain ⟨hrin, hkey⟩ := hmem
        have hgifs : r0.gif ∈ db.gifs := mem_gifs_of_mem_incRows hrin
        subst hrg
        refine ⟨hgifs, ?_⟩
        unfold Gif.matchRowCount
        rw [hkey]
        exact hlen
      case isFalse => cases hf
    · rintro ⟨hgifs, hcount⟩
      have hgrp : ((Gif.incRows db tags rating).filter
          (fun r => decide (r.gif.fileUniqueId = g.fileUniqueId))) ≠ [] := by
        intro hnil
        unfold Gif.matchRowCount at hcount
        rw [hnil] at hcount
        exact hne (List.eq_nil_of_length_eq_zero hcount.symm)
      obtain ⟨r0, hr0⟩ : ∃ r0, ((Gif.incRows db tags rating).filter
          (fun r => decide (r.gif.fileUniqueId = g.fileUniqueId))).head? = some r0 := by
        cases hg2 : ((Gif.incRows db tags rating).filter
            (fun r => decide (r.gif.fileUniqueId = g.fileUniqueId))) with
        | nil => exact absurd hg2 hgrp
        | cons a l => exact ⟨a, rfl⟩
      have hr0mem := List.mem_of_mem_head? hr0
      rw [List.mem_filter, decide_eq_true_eq] at hr0mem
      obtain ⟨hr0in, hr0key⟩ := hr0mem
      have hr0g : r0.gif = g :=
        fileUniqueId_inj hkeys (mem_gifs_of_mem_incRows hr0in) hgifs hr0key
      unfold Gif.searchAllInc
      rw [List.mem_filterMap]
      refine ⟨g.fileUniqueId, ?_, ?_⟩
      · rw [Gif.mem_groupKeys]
        exact ⟨⟨r0, hr0in, hr0key⟩, List.not_mem_nil _⟩
      · unfold Gif.matchRowCount at hcount
        rw [if_pos hcount, Option.map_eq_some']
        exact ⟨r0, hr0, hr0g⟩
  · intro page limit
    have h := @Gif.search_of_all_positive db tags rating page limit hpos
    rw [h, if_neg (by simpa [List.isEmpty_iff] using hne)]

/-- C1 witness: the alias scenario of the spec — tag `fox` has the single
alias `foxes`, item `G1` carries `fox`, and the query `["foxes"]` returns
`G1` (its single join row matches through the alias, and `1 = 1`). -/
theorem c1_having_counts_join_rows_witness :
    exGifSafe ∈ Gif.searchAllInc exDbFoxes ["foxes"] none ∧
    Gif.matchRowCount exDbFoxes ["foxes"] none exGifSafe = 1 := by
  have h := (c1_having_counts_join_rows exDbFoxes ["foxes"] none exGifSafe
    (by decide) (by decide) (by decide)).1
  exact ⟨h.mpr (by decide), by decide⟩

/-- C5: the tag/source setter computes exactly `toAdd = desired − current`
and `toRemove = current − desired` under string equality on the member key,
issues no write for members present in both, leaves the stored set equal to
the desired set, and on the spec's examples performs exactly the writes
`reconcile({a,b,c},{b,c,d}) = (+d, −a)` and
`replaceTags({a,b},["a","c"]) = (+c, −b)`. -/
theorem c5_reconcile_exact_diff :
    (∀ current desired : List String,
      (∀ t, t ∈ (Gif.setTags current desired).inserted ↔ t ∈ desired ∧ t ∉ current) ∧
      (∀ t, t ∈ (Gif.setTags current desired).deleted ↔ t ∈ current ∧ t ∉ desired) ∧
      (∀ t, t ∈ current → t ∈ desired →
        t ∉ (Gif.setTags current desired).inserted ∧
        t ∉ (Gif.setTags current desired).deleted) ∧
      (∀ t, t ∈ (Gif.setTags current desired).finalTags ↔ t ∈ desired)) ∧
    Gif.setTags ["a", "b", "c"] ["b", "c", "d"] =
      { finalTags := ["b", "c", "d"], inserted := ["d"], deleted := ["a"] } ∧
    Gif.setTags ["a", "b"] ["a", "c"] =
      { finalTags := ["a", "c"], inserted := ["c"], deleted := ["b"] } := by
  refine ⟨fun current desired => ?_, by decide, by decide⟩
  have hins : ∀ t, t ∈ Gif.tagsToAdd current desired ↔ t ∈ desired ∧ t ∉ current := by
    intro t
    unfold Gif.tagsToAdd
    rw [List.mem_filter, Option.isNone_iff_eq_none, List.find?_eq_none]
    constructor
    · rintro ⟨h1, h2⟩
      exact ⟨h1, fun hc => by simpa using h2 t hc⟩
    · rintro ⟨h1, h2⟩
      exact ⟨h1, fun e he => by
        simp only [decide_eq_true_eq]
        rintro rfl
        exact h2 he⟩
  have hdel : ∀ t, t ∈ Gif.tagsToRemove (current ++ Gif.tagsToAdd current desired) desired ↔
      t ∈ current ∧ t ∉ desired := by
    intro t
    unfold Gif.tagsToRemove
    rw [List.mem_filter, Option.isNone_iff_eq_none, List.find?_eq_none, List.mem_append]
    constructor
    · rintro ⟨h1 | h1, h2⟩
      · exact ⟨h1, fun hd => by simpa using h2 t hd⟩
      · exact absurd ((hins t).mp h1).1 (fun hd => by simpa using h2 t hd)
    · rintro ⟨h1, h2⟩
      refine ⟨Or.inl h1, fun e he => by
        simp only [decide_eq_true_eq]
        rintro rfl
        exact h2 he⟩
  refine ⟨hins, hdel, fun t hc hd => ⟨fun hi => ((hins t).mp hi).2 hc,
    fun hdel2 => ((hdel t).mp hdel2).2 hd⟩, ?_⟩
  intro t
  show t ∈ (current ++ Gif.tagsToAdd current desired).filter
      (fun x => !(Gif.tagsToRemove (current ++ Gif.tagsToAdd current desired) desired).contains x) ↔
    t ∈ desired
  rw [List.mem_filter]
  constructor
  · rintro ⟨h1, h2⟩
    by_contra hnd
    have : t ∈ Gif.tagsToRemove (current ++ Gif.tagsToAdd current desired) desired := by
      rw [hdel t]
      rcases List.mem_append.mp h1 with h | h
      · exact ⟨h, hnd⟩
      · exact absurd ((hins t).mp h).1 hnd
    simp [List.contains, List.elem_iff, this] at h2
  · intro hd
    refine ⟨?_, ?_⟩
    · rw [List.mem_append]
      by_cases hc : t ∈ current
      · exact Or.inl hc
      · exact Or.inr ((hins t).mpr ⟨hd, hc⟩)
    · have : t ∉ Gif.tagsToRemove (current ++ Gif.tagsToAdd current desired) desired :=
        fun hmem => ((hdel t).mp hmem).2 hd
      simp [List.contains, List.elem_iff, this]

/-- C6 (amended): resolution is alias-first with a canonical-name fallback
and a single indirection level; consequently, for every canonical tag whose
name is not itself registered as an alias (the schema does not rule such
collisions out), resolving its own name and resolving any of its registered
aliases both return that tag (under primary-key uniqueness of tag names and
alias names). -/
theorem c6_alias_and_name_resolve_alike (db : DB) (t : TagRow)
    (ht : t ∈ db.tags)
    (hndT : (db.tags.map TagRow.tag).Nodup)
    (hndA : (db.tagAliases.map TagAliasRow.aliasName).Nodup)
    (hshadow : ∀ a ∈ db.tagAliases, a.aliasName ≠ t.tag) :
    Tag.readByTagName db t.tag = some t ∧
      ∀ a ∈ db.tagAliases, a.tag = t.tag →
        Tag.readByTagName db a.aliasName = some t := by
  constructor
  · unfold Tag.readByTagName
    rw [Tag.aliasJoin_eq_nil hshadow]
    rw [filter_key_singleton TagRow.tag db.tags t hndT ht]
    rfl
  · intro a ha hat
    unfold Tag.readByTagName
    rw [Tag.aliasJoin_of_mem db.tags db.tagAliases a hndA ha, hat]
    rw [filter_key_singleton TagRow.tag db.tags t hndT ht]
    rfl

/-- C6 witness: in the fixture where tag `fox` has the alias `foxes`,
resolving `fox` and resolving `foxes` both return the canonical tag `fox`. -/
theorem c6_alias_and_name_resolve_alike_witness :
    Tag.readByTagName exDbFoxes "fox" = some ⟨"fox", "general"⟩ ∧
    Tag.readByTagName exDbFoxes "foxes" = some ⟨"fox", "general"⟩ := by
  have h := c6_alias_and_name_resolve_alike exDbFoxes ⟨"fox", "general"⟩
    (by decide) (by decide) (by decide) (by decide)
  exact ⟨h.1, h.2 ⟨"fox", "foxes"⟩ (by decide) rfl⟩

/-- C7: ingestion is idempotent per unique key — when the key is absent, the
first call inserts the record with the requester recorded as uploader; a
second call with the same key (even from a different actor) issues no write
and returns the stored record unchanged, preserving the original uploader. -/
theorem c7_ingest_idempotent (db : DB) (u1 u2 : User) (p : GifProps)
    (habs : Gif.readById db p.fileUniqueId = none) :
    (GifController.create db u1 p).2.uploadedById = some u1.id ∧
    GifController.create (GifController.create db u1 p).1 u2 p =
      ((GifController.create db u1 p).1, (GifController.create db u1 p).2) := by
  have hnil : db.gifs.filter (fun g => decide (g.fileUniqueId = p.fileUniqueId)) = [] := by
    unfold Gif.readById at habs
    simpa using habs
  have hfst : GifController.create db u1 p =
      ({ db with gifs := db.gifs ++ [Gif.ofProps { p with uploadedById := some u1.id }] },
        Gif.ofProps { p with uploadedById := some u1.id }) := by
    unfold GifController.create
    rw [habs]
  have hkey : (Gif.ofProps { p with uploadedById := some u1.id }).fileUniqueId =
      p.fileUniqueId := rfl
  have hsnd : Gif.readById
      { db with gifs := db.gifs ++ [Gif.ofProps { p with uploadedById := some u1.id }] }
      p.fileUniqueId = some (Gif.ofProps { p with uploadedById := some u1.id }) := by
    unfold Gif.readById
    simp only [List.filter_append, hnil, List.nil_append]
    rw [List.filter_cons_of_pos (by simp [hkey]), List.filter_nil]
    rfl
  refine ⟨by rw [hfst]; rfl, ?_⟩
  rw [hfst]
  unfold GifController.create
  rw [hsnd]

/-- C7 witness: ingesting key `G9` into the empty catalog as user 1 records
user 1 as uploader; re-ingesting the same key as user 2 is a no-op returning
the same record. -/
theorem c7_ingest_idempotent_witness :
    (GifController.create exDbEmpty exUploader exProps).2.uploadedById =
      some exUploader.id ∧
    GifController.create (GifController.create exDbEmpty exUploader exProps).1
        exOtherUser exProps =
      ((GifController.create exDbEmpty exUploader exProps).1,
        (GifController.create exDbEmpty exUploader exProps).2) :=
  c7_ingest_idempotent exDbEmpty exUploader exOtherUser exProps (by decide)

/-- C10: an update issues the item-row `UPDATE Gif SET rating = ?,
approvedById = ?` statement exactly when a (truthy) rating change is
requested, and after applying every write the update issues, each stored gif
row keeps all columns other than `rating` and `approvedById` unchanged
(tag and source writes never touch the `Gif` table). -/
theorem c10_update_frame (db : DB) (gif : GifRow) (changes : GifChanges) :
    ((GifController.update db gif changes).2.any DbOp.isGifUpdate =
      jsTruthyStr changes.rating) ∧
    List.Forall₂ gifImmut db.gifs
      (applyOps db (GifController.update db gif changes).2).gifs := by
  refine ⟨?_, applyOps_frame _ db⟩
  unfold GifController.update
  simp only [List.any_append, tagsStep_no_gifUpdate, sourcesStep_no_gifUpdate,
    Bool.or_false]
  unfold ratingStep
  cases htr : jsTruthyStr changes.rating
  · rfl
  · rfl
